import Mathlib

/-!
Verification development for the B.League schedule scraper
(`b_league_schedule_scraper.py`).

The Python source is shallowly embedded below.  Strings are Lean `String`s
(Python `str` comparison is code-point lexicographic, matching `List Char`
lexicographic order on `String.data`); the regular expressions used by the
scraper are embedded as explicit scanning functions with the exact
leftmost-match and greedy/lazy backtracking behaviour of Python's `re`
module on the patterns in question; `datetime` construction and
`strptime`, which raise `ValueError` on ill-formed input, are embedded as
`Except String` values.  `\s` and `\d` are modelled over the character
sets the scraper actually meets (ASCII whitespace plus the ideographic
space, ASCII digits).
-/

/-- Python whitespace (`\s` / `str.strip()`), restricted to the characters
relevant here: ASCII whitespace and the full-width ideographic space. -/
def pyIsSpace (c : Char) : Bool :=
  c = ' ' ∨ c = '\t' ∨ c = '\n' ∨ c = '\r' ∨ c = '\x0b' ∨ c = '\x0c' ∨ c = '　'

/-- ASCII digit test (`\d` of the source's regexes). -/
def isDig (c : Char) : Bool := 48 ≤ c.toNat ∧ c.toNat ≤ 57

/-- Numeric value of an ASCII digit character. -/
def digitVal (c : Char) : Nat := c.toNat - 48

/-- Collapse every run of whitespace to a single `' '`
(the `re.sub(r"\s+", " ", s)` part of `_clean_text`). -/
def collapseWS : List Char → List Char
  | [] => []
  | [c] => if pyIsSpace c then [' '] else [c]
  | c :: d :: rest =>
    if pyIsSpace c ∧ pyIsSpace d then collapseWS (d :: rest)
    else (if pyIsSpace c then ' ' else c) :: collapseWS (d :: rest)

/-- Embeds `str.strip()` on a character list: drop whitespace from both ends. -/
def stripWS (cs : List Char) : List Char :=
  ((cs.dropWhile pyIsSpace).reverse.dropWhile pyIsSpace).reverse

/-- Embeds `_clean_text(s)`: collapse whitespace runs to single spaces and trim. -/
def cleanText (s : String) : String := String.mk (stripWS (collapseWS s.data))

/-- Does `pat` occur as a contiguous substring of `text`
(Python's `pat in text`)?  Helper: prefix test. -/
def leadsWith : List Char → List Char → Bool
  | [], _ => true
  | _ :: _, [] => false
  | p :: ps, c :: cs => p = c && leadsWith ps cs

/-- Python's `pat in text` substring containment. -/
def hasSub (pat : List Char) : List Char → Bool
  | [] => leadsWith pat []
  | c :: rest => leadsWith pat (c :: rest) || hasSub pat rest

/-- Substring containment on `String`s. -/
def hasSubS (pat s : String) : Bool := hasSub pat.data s.data

/-- Embeds `str.upper()`, restricted to ASCII (the only case the source exercises:
the `"HOME"`/`"AWAY"` tokens). -/
def upperStr (s : String) : String := String.mk (s.data.map Char.toUpper)

/-- Embeds `str.strip(bad)`: drop characters of `bad` from both ends. -/
def stripChars (bad : List Char) (cs : List Char) : List Char :=
  ((cs.dropWhile (fun c => bad.contains c)).reverse.dropWhile
    (fun c => bad.contains c)).reverse

/-- A calendar date as held by a (valid) Python `datetime`. -/
structure Date where
  year : Nat
  month : Nat
  day : Nat
deriving DecidableEq

/-- Gregorian leap-year rule used by `datetime`. -/
def isLeap (y : Nat) : Bool := y % 4 = 0 ∧ (y % 100 ≠ 0 ∨ y % 400 = 0)

/-- Length of a month, as validated by `datetime`. -/
def daysInMonth (y m : Nat) : Nat :=
  if m = 2 then (if isLeap y then 29 else 28)
  else if m = 4 ∨ m = 6 ∨ m = 9 ∨ m = 11 then 30
  else 31

/-- Embeds `datetime(year, month, day)`: validates its arguments and raises
`ValueError` (here: `.error`) on an ill-formed calendar date. -/
def mkDate (y m d : Nat) : Except String Date :=
  if ¬(1 ≤ y ∧ y ≤ 9999) then .error "year is out of range"
  else if ¬(1 ≤ m ∧ m ≤ 12) then .error "month must be in 1..12"
  else if ¬(1 ≤ d ∧ d ≤ daysInMonth y m) then .error "day is out of range for month"
  else .ok ⟨y, m, d⟩

/-- Embeds `"%02d"` formatting for the values `< 100` produced by the scraper. -/
def pad2 (n : Nat) : String :=
  String.mk [Nat.digitChar (n / 10 % 10), Nat.digitChar (n % 10)]

/-- Embeds `"%04d"` year formatting (`strftime("%Y")`, years `< 10000`). -/
def pad4 (n : Nat) : String :=
  String.mk [Nat.digitChar (n / 1000 % 10), Nat.digitChar (n / 100 % 10),
             Nat.digitChar (n / 10 % 10), Nat.digitChar (n % 10)]

/-- Embeds `strftime("%H:%M")` / the `f"{hh:02d}:{mm:02d}"` of `parse_time`. -/
def fmtHM (hh mm : Nat) : String := pad2 hh ++ ":" ++ pad2 mm

/-- Embeds `date.strftime("%Y-%m-%d")`. -/
def dstr (d : Date) : String := pad4 d.year ++ "-" ++ pad2 d.month ++ "-" ++ pad2 d.day

/-- The `Game` dataclass. -/
structure Game where
  home_away : String
  opponent : String
  venue : String
  date : Date
  start_time : Option String
deriving DecidableEq

/-- The `"未定"` (undecided) marker searched for by `parse_time`. -/
def mitei : List Char := ['未', '定']

/-- Match of `(\d{1,2}):(\d{2})` anchored at the current position with the
two-digit hour group (the greedy first attempt of `\d{1,2}`). -/
def timeAt2 : List Char → Option (Nat × Nat)
  | d1 :: d2 :: c :: e1 :: e2 :: _ =>
    if isDig d1 ∧ isDig d2 ∧ c = ':' ∧ isDig e1 ∧ isDig e2 then
      some (10 * digitVal d1 + digitVal d2, 10 * digitVal e1 + digitVal e2)
    else none
  | _ => none

/-- Match of `(\d{1,2}):(\d{2})` anchored at the current position with a
one-digit hour group (the backtracked attempt). -/
def timeAt1 : List Char → Option (Nat × Nat)
  | d1 :: c :: e1 :: e2 :: _ =>
    if isDig d1 ∧ c = ':' ∧ isDig e1 ∧ isDig e2 then
      some (digitVal d1, 10 * digitVal e1 + digitVal e2)
    else none
  | _ => none

/-- Embeds `re.search(r"(\d{1,2}):(\d{2})", s)`: leftmost match, greedy hour. -/
def timeSearch : List Char → Option (Nat × Nat)
  | [] => none
  | c :: rest =>
    match timeAt2 (c :: rest) with
    | some r => some r
    | none =>
      match timeAt1 (c :: rest) with
      | some r => some r
      | none => timeSearch rest

/-- Embeds `parse_time(s)`: `None` when the text contains `"未定"`, otherwise the
first `\d{1,2}:\d{2}` match with both groups zero-padded, else `None`. -/
def parse_time (s : String) : Option String :=
  if hasSub mitei s.data then none
  else
    match timeSearch s.data with
    | none => none
    | some (hh, mm) => some (fmtHM hh mm)

/-- Embeds `strptime`'s `%H` directive: `2[0-3]|[0-1]\d|\d`, tried in that order. -/
def matchH24 : List Char → Option (Nat × List Char)
  | c1 :: c2 :: rest =>
    if c1 = '2' ∧ 48 ≤ c2.toNat ∧ c2.toNat ≤ 51 then some (20 + digitVal c2, rest)
    else if (c1 = '0' ∨ c1 = '1') ∧ isDig c2 then some (10 * digitVal c1 + digitVal c2, rest)
    else if isDig c1 then some (digitVal c1, c2 :: rest)
    else none
  | [c1] => if isDig c1 then some (digitVal c1, []) else none
  | [] => none

/-- Embeds `strptime`'s `%M` directive: `[0-5]\d|\d`, tried in that order. -/
def matchM60 : List Char → Option (Nat × List Char)
  | c1 :: c2 :: rest =>
    if 48 ≤ c1.toNat ∧ c1.toNat ≤ 53 ∧ isDig c2 then some (10 * digitVal c1 + digitVal c2, rest)
    else if isDig c1 then some (digitVal c1, c2 :: rest)
    else none
  | [c1] => if isDig c1 then some (digitVal c1, []) else none
  | [] => none

/-- The `"%H:%M"` tail of `strptime(date + " " + start_time, "%Y-%m-%d %H:%M")`
in `Game.to_row` (the `%Y-%m-%d` head re-parses the just-formatted valid
date and always succeeds, so only the time part can fail).
Minutes-and-end stage: -/
def parseHMMin (hh : Nat) (rest2 : List Char) : Except String (Nat × Nat) :=
  match matchM60 rest2 with
  | none => .error "time data does not match format"
  | some (mm, rest3) =>
    if rest3 = [] then .ok (hh, mm) else .error "unconverted data remains"

/-- After the hour: a literal `':'`, then the minutes, then nothing. -/
def parseHMTail (hh : Nat) (rest : List Char) : Except String (Nat × Nat) :=
  match rest with
  | c :: rest2 =>
    if c = ':' then parseHMMin hh rest2
    else .error "time data does not match format"
  | [] => .error "time data does not match format"

def parseHM (cs : List Char) : Except String (Nat × Nat) :=
  match matchH24 cs with
  | none => .error "time data does not match format"
  | some (hh, rest) => parseHMTail hh rest

/-- The subject text `f"{home_away} vs {opponent}@{venue}"`. -/
def subjBase (g : Game) : String :=
  g.home_away ++ " vs " ++ g.opponent ++ "@" ++ g.venue

/-- The all-day CSV row emitted when `start_time` is falsy. -/
def alldayRow (g : Game) : List String :=
  [subjBase g ++ " ※時刻未定", dstr g.date, "", dstr g.date, "", "True", g.venue]

/-- The timed CSV row: end time is start plus `TIMEDELTA_MINUTES = 150`,
shown modulo 24h; both date columns are `start_dt`'s date. -/
def timedRow (g : Game) (hh mm : Nat) : List String :=
  [subjBase g, dstr g.date, fmtHM hh mm, dstr g.date,
   fmtHM ((hh * 60 + mm + 150) / 60 % 24) ((hh * 60 + mm + 150) % 60), "False", g.venue]

/-- The timed branch after the `strptime` re-parse of `start_time`. -/
def rowTimed (g : Game) : Except String (Nat × Nat) → Except String (List String)
  | .error e => .error e
  | .ok (hh, mm) => .ok (timedRow g hh mm)

/-- The branch on `if not self.start_time` (Python falsiness: `None` and
`""` both take the all-day branch). -/
def rowFromTime (g : Game) : Option String → Except String (List String)
  | none => .ok (alldayRow g)
  | some s =>
    if s = "" then .ok (alldayRow g)
    else rowTimed g (parseHM s.data)

/-- Embeds `Game.to_row`: `.error` models the uncaught `ValueError` that
`strptime` raises when `start_time` does not parse as `%H:%M`. -/
def Game.to_row (g : Game) : Except String (List String) :=
  rowFromTime g g.start_time

example : parse_time "19:05 tip-off" = some "19:05" := rfl
example : parse_time "Gate 19:05 時刻未定" = none := rfl
example : parse_time "99:99" = some "99:99" := rfl
example : parse_time "" = none := rfl
example : parseHM "23:00".data = .ok (23, 0) := rfl
example : parseHM "99:99".data = .error "time data does not match format" := rfl
example : parseHM "23:99".data = .error "unconverted data remains" := rfl
example : Game.to_row ⟨"[HOME]", "Opp", "Ven", ⟨2025, 10, 5⟩, some "23:00"⟩ =
    .ok ["[HOME] vs Opp@Ven", "2025-10-05", "23:00", "2025-10-05", "01:30", "False", "Ven"] := rfl
example : cleanText "  a  b　c " = "a b c" := rfl

/-- Separator class `[./]` of the `(\d{1,2})[./](\d{1,2})` date pattern. -/
def sepMD (c : Char) : Bool := c = '.' ∨ c = '/'

/-- Separator class `[.|slash|-]` of the `(\d{4})[.|slash|-](\d{1,2})[.|slash|-](\d{1,2})`
date pattern. -/
def sepYMD (c : Char) : Bool := c = '.' ∨ c = '/' ∨ c = '-'

/-- Trailing `(\d{1,2})` group: greedy, two digits preferred. -/
def d12At : List Char → Option Nat
  | [] => none
  | [d1] => if isDig d1 then some (digitVal d1) else none
  | d1 :: d2 :: _ =>
    if isDig d1 then
      if isDig d2 then some (10 * digitVal d1 + digitVal d2) else some (digitVal d1)
    else none

/-- Embeds `(\d{1,2})[./](\d{1,2})` anchored with a one-digit month group. -/
def mdOne : List Char → Option (Nat × Nat)
  | d1 :: c :: rest =>
    if isDig d1 ∧ sepMD c then (d12At rest).map (fun d => (digitVal d1, d))
    else none
  | _ => none

/-- Embeds `(\d{1,2})[./](\d{1,2})` anchored at the current position: the month
group greedily tries two digits, backtracking to one (the backtracked
attempt can only succeed when the two-digit attempt failed before its
separator, since a digit is never a separator). -/
def mdAt (cs : List Char) : Option (Nat × Nat) :=
  match cs with
  | d1 :: d2 :: c :: rest =>
    if isDig d1 ∧ isDig d2 ∧ sepMD c then
      match d12At rest with
      | some d => some (10 * digitVal d1 + digitVal d2, d)
      | none => mdOne cs
    else mdOne cs
  | _ => mdOne cs

/-- Embeds `re.search(r"(\d{1,2})[./](\d{1,2})", s)`: leftmost match. -/
def searchMd : List Char → Option (Nat × Nat)
  | [] => none
  | c :: rest =>
    match mdAt (c :: rest) with
    | some r => some r
    | none => searchMd rest

/-- A `(\d{1,2})` group that must be followed by a `[.|slash|-]` separator;
greedy with backtracking, returns the value and the text after the
separator. -/
def d12SepAt : List Char → Option (Nat × List Char)
  | d1 :: d2 :: c :: rest =>
    if isDig d1 ∧ isDig d2 ∧ sepYMD c then some (10 * digitVal d1 + digitVal d2, rest)
    else if isDig d1 ∧ sepYMD d2 then some (digitVal d1, c :: rest)
    else none
  | [d1, d2] => if isDig d1 ∧ sepYMD d2 then some (digitVal d1, []) else none
  | _ => none

/-- Embeds `(\d{4})[.|slash|-](\d{1,2})[.|slash|-](\d{1,2})` anchored at the current position. -/
def ymdAt : List Char → Option (Nat × Nat × Nat)
  | a :: b :: c :: d :: e :: rest =>
    if isDig a ∧ isDig b ∧ isDig c ∧ isDig d ∧ sepYMD e then
      match d12SepAt rest with
      | some (mo, rest2) =>
        (d12At rest2).map
          (fun dy => (1000 * digitVal a + 100 * digitVal b + 10 * digitVal c + digitVal d, mo, dy))
      | none => none
    else none
  | _ => none

/-- Embeds `re.search(r"(\d{4})[.|slash|-](\d{1,2})[.|slash|-](\d{1,2})", s)`: leftmost match. -/
def searchYmd : List Char → Option (Nat × Nat × Nat)
  | [] => none
  | c :: rest =>
    match ymdAt (c :: rest) with
    | some r => some r
    | none => searchYmd rest

/-- Case-insensitive `v` (for the `vs` patterns compiled with `re.IGNORECASE`). -/
def isVChar (c : Char) : Bool := c = 'v' ∨ c = 'V'

/-- Case-insensitive `s`. -/
def isSChar (c : Char) : Bool := c = 's' ∨ c = 'S'

/-- The negated class `[^\s@|｜]` terminating the opponent capture. -/
def opStopChar (c : Char) : Bool := pyIsSpace c ∨ c = '@' ∨ c = '|' ∨ c = '｜'

/-- Embeds `vs\s*([^\s@|｜]+)` anchored at the current position: after `vs`,
greedy whitespace, then a non-empty greedy capture (backtracking `\s*`
cannot rescue a failed capture, since the freed character is whitespace
and so still excluded from the class). -/
def vsCapAt : List Char → Option (List Char)
  | v :: s :: rest =>
    if isVChar v ∧ isSChar s then
      match (rest.dropWhile pyIsSpace).takeWhile (fun c => !opStopChar c) with
      | [] => none
      | c :: cs => some (c :: cs)
    else none
  | _ => none

/-- Embeds `re.search(r"vs\s*([^\s@|｜]+)", text, re.IGNORECASE)`: leftmost match. -/
def searchVs : List Char → Option (List Char)
  | [] => none
  | c :: rest =>
    match vsCapAt (c :: rest) with
    | some r => some r
    | none => searchVs rest

/-- The text after the first case-insensitive `vs`
(`re.split(r"vs", text, flags=re.IGNORECASE)` has at least two parts
exactly when this is `some`). -/
def afterFirstVs : List Char → Option (List Char)
  | v :: s :: rest =>
    if isVChar v ∧ isSChar s then some rest else afterFirstVs (s :: rest)
  | _ => none

/-- The prefix of a list up to (excluding) its next case-insensitive `vs`:
together with `afterFirstVs` this yields `parts[1]` of the split. -/
def beforeVs : List Char → List Char
  | [] => []
  | [c] => [c]
  | v :: s :: rest =>
    if isVChar v ∧ isSChar s then [] else v :: beforeVs (s :: rest)

/-- Embeds `re.split(r"[@＠]|会場|日時|時間", tail)[0]`: the prefix up to the first
occurrence of any of the alternatives. -/
def cutAtMarkers : List Char → List Char
  | [] => []
  | c :: rest =>
    if c = '@' ∨ c = '＠' then []
    else if leadsWith ['会', '場'] (c :: rest) ∨ leadsWith ['日', '時'] (c :: rest)
            ∨ leadsWith ['時', '間'] (c :: rest) then []
    else c :: cutAtMarkers rest

/-- The lazy `.+?(?:\s|$)` tail: the shortest non-empty run of characters
followed by whitespace or the end of the text. -/
def lazyCap : List Char → Option (List Char)
  | [] => none
  | c :: rest =>
    match rest with
    | [] => some [c]
    | d :: _ => if pyIsSpace d then some [c] else (lazyCap rest).map (fun l => c :: l)

/-- Embeds `[@＠]\s*([^\s].+?)(?:\s|$)` anchored at the current position. -/
def venueAt : List Char → Option (List Char)
  | a :: rest =>
    if a = '@' ∨ a = '＠' then
      match rest.dropWhile pyIsSpace with
      | [] => none
      | c0 :: tail => (lazyCap tail).map (fun cap => c0 :: cap)
    else none
  | [] => none

/-- Embeds `re.search(r"[@＠]\s*([^\s].+?)(?:\s|$)", text)`: leftmost match. -/
def searchAt : List Char → Option (List Char)
  | [] => none
  | c :: rest =>
    match venueAt (c :: rest) with
    | some r => some r
    | none => searchAt rest

/-- Embeds `(会場[:：]\s*)(.+?)(?:\s|$)` anchored at the current position,
returning group 2.  When only whitespace follows the label, the greedy
`\s*` backtracks by one character so that `.+?` captures that single
whitespace character before the end of the text. -/
def venueLabelAt : List Char → Option (List Char)
  | a :: b :: c :: rest =>
    if a = '会' ∧ b = '場' ∧ (c = ':' ∨ c = '：') then
      match lazyCap (rest.dropWhile pyIsSpace) with
      | some cap => some cap
      | none =>
        match (rest.takeWhile pyIsSpace).getLast? with
        | some w => some [w]
        | none => none
    else none
  | _ => none

/-- Embeds `re.search(r"(会場[:：]\s*)(.+?)(?:\s|$)", text)`: leftmost match. -/
def searchVenueLabel : List Char → Option (List Char)
  | [] => none
  | c :: rest =>
    match venueLabelAt (c :: rest) with
    | some r => some r
    | none => searchVenueLabel rest

example : searchMd "10.5 rest".data = some (10, 5) := rfl
example : searchMd "1/3".data = some (1, 3) := rfl
example : searchMd "123.45".data = some (23, 45) := rfl
example : searchYmd "x 2026-1-3 y".data = some (2026, 1, 3) := rfl
example : searchYmd "10.31".data = none := rfl
example : searchVs "Team vs Rival Club".data = some "Rival".data := rfl
example : searchVs "foo VS  X@Y".data = some "X".data := rfl
example : searchAt "go @Arena 18:05".data = some "Arena".data := rfl
example : searchAt "@ Main Arena".data = some "Main".data := rfl
example : searchAt "@ X Y".data = some "X Y".data := rfl
example : searchVenueLabel "会場: ホール x".data = some "ホール".data := rfl


/-- One `li` entry of the structured schedule list, as the fields
`_parse_schedule_list` selects from it (`select_one` results; `none`
models a missing element, the `String` is the element's `get_text`). -/
structure ScheduleItem where
  day : Option String
  team : Option String
  stadium : Option String
  time : Option String
  ah : Option String
deriving DecidableEq

/-- The identity key `(g.date.strftime("%Y-%m-%d"), g.opponent, g.venue)`. -/
def gameKey (g : Game) : String × String × String := (dstr g.date, g.opponent, g.venue)

/-- One step of the Python-dict deduplication `keyed[key] = g`: an existing
key keeps its insertion position but gets the new value; a new key is
appended. -/
def insertKeyed (ks : List ((String × String × String) × Game)) (g : Game) :
    List ((String × String × String) × Game) :=
  if ks.any (fun p => decide (p.1 = gameKey g)) then
    ks.map (fun p => if p.1 = gameKey g then (p.1, g) else p)
  else ks ++ [(gameKey g, g)]

/-- The `keyed = {}; for g in games: keyed[key] = g; list(keyed.values())`
deduplication shared by both extraction passes: last record with a given
identity key wins, at the key's first position. -/
def dedupByKey (games : List Game) : List Game :=
  (games.foldl insertKeyed []).map Prod.snd

/-- The body of `_parse_schedule_list`'s loop for one entry minus the date
logic: cleaning, time parsing and HOME/AWAY resolution. -/
def mkStructGame (homeKw : List String) (it : ScheduleItem) (oppT venT : String)
    (date : Date) : Game :=
  let venue := cleanText venT
  let opponent := cleanText oppT
  let timeRaw := match it.time with | some t => cleanText t | none => ""
  let st := parse_time timeRaw
  let homeTag := match it.ah with | some t => upperStr (cleanText t) | none => ""
  let ha0 := if hasSubS "HOME" homeTag then "[HOME]" else "[AWAY]"
  let ha := if homeTag = "" ∧ homeKw.any (fun k => hasSubS k venue) then "[HOME]" else ha0
  ⟨ha, opponent, venue, date, st⟩

/-- One iteration of `_parse_schedule_list`'s loop: `.ok none` is a
`continue` (missing field, no date match, month mismatch), `.error` the
uncaught `ValueError` of `datetime(year, mo, day)` on a bad day.
Date stage: the `M[./]D` search, month filter and `datetime` call. -/
def parseItemDate (year month : Nat) (dayT : String) : Except String (Option Date) :=
  match searchMd (cleanText dayT).data with
  | none => .ok none
  | some (mo, dy) =>
    if mo = month then (mkDate year mo dy).map some
    else .ok none

/-- One iteration of `_parse_schedule_list`'s loop (all three required
sub-elements present case handled via `parseItemDate`). -/
def parseItem (year month : Nat) (homeKw : List String) (it : ScheduleItem) :
    Except String (Option Game) :=
  match it.day, it.team, it.stadium with
  | some dayT, some oppT, some venT =>
    match parseItemDate year month dayT with
    | .error e => .error e
    | .ok none => .ok none
    | .ok (some date) => .ok (some (mkStructGame homeKw it oppT venT date))
  | _, _, _ => .ok none

/-- The full loop of `_parse_schedule_list` (before deduplication). -/
def collectItems (year month : Nat) (homeKw : List String) :
    List ScheduleItem → Except String (List Game)
  | [] => .ok []
  | it :: rest =>
    match parseItem year month homeKw it with
    | .error e => .error e
    | .ok none => collectItems year month homeKw rest
    | .ok (some g) =>
      match collectItems year month homeKw rest with
      | .error e => .error e
      | .ok gs => .ok (g :: gs)

/-- Embeds `_parse_schedule_list(year, month, soup, home_keywords)`: the
structured extraction pass over the selected entries, deduplicated. -/
def parseScheduleList (year month : Nat) (homeKw : List String)
    (items : List ScheduleItem) : Except String (List Game) :=
  (collectItems year month homeKw items).map dedupByKey

/-- Per-team constants of the heuristic pass. -/
structure HeurCfg where
  markers : List String
  homeArenas : List String
  knownArenas : List String

/-- The characters stripped from a fallback opponent capture
(`.strip(" -|｜:：")`). -/
def opStripSet : List Char := [' ', '-', '|', '｜', ':', '：']

/-- The characters stripped from a venue capture (`.strip(" 、，,)|）)]")`). -/
def venueStripSet : List Char := [' ', '、', '，', ',', ')', '|', '）', ']']

/-- Date resolution of a heuristic node: the full `YYYY[.|slash|-]M[.|slash|-]D`
pattern first, then `M[./]D` combined with the target year; `.error` is the
uncaught `ValueError` of `datetime` on an ill-formed date, `.ok none` the
`continue` when no pattern matches. -/
def dateOfText (year : Nat) (text : String) : Except String (Option Date) :=
  match searchYmd text.data with
  | some (y, mo, d) => (mkDate y mo d).map some
  | none =>
    match searchMd text.data with
    | some (mo, d) => (mkDate year mo d).map some
    | none => .ok none

/-- Opponent resolution of a heuristic node: the `vs\s*([^\s@|｜]+)` capture,
else the text between the first case-insensitive `vs` and the next one,
cut at `[@＠]|会場|日時|時間`, cleaned and stripped; `none` is a skip. -/
def opponentOfText (text : String) : Option String :=
  match searchVs text.data with
  | some cap => some (String.mk cap)
  | none =>
    match afterFirstVs text.data with
    | none => none
    | some tail =>
      let opp := stripChars opStripSet (cleanText (String.mk (cutAtMarkers (beforeVs tail)))).data
      if opp = [] then none else some (String.mk opp)

/-- Venue resolution of a heuristic node: the `[@＠]...` capture, else the
`会場[:：]...` capture (each stripped, an empty strip falling through),
else the first known arena occurring verbatim in the text. -/
def venueOfText (arenas : List String) (text : String) : Option String :=
  let v1 := match searchAt text.data with
    | some cap => stripChars venueStripSet cap
    | none => []
  let v2 := if v1 ≠ [] then v1 else
    match searchVenueLabel text.data with
    | some cap => stripChars venueStripSet cap
    | none => []
  if v2 ≠ [] then some (String.mk v2)
  else arenas.find? (fun a => hasSubS a text)

/-- One iteration of the heuristic loop of `parse_alvark_month` /
`parse_sunrockers_month` over a candidate node's flattened text:
`.ok none` is a `continue`, `.error` the uncaught `ValueError` of
`datetime` on an ill-formed matched date. -/
def heurNode (cfg : HeurCfg) (year : Nat) (rawText : String) :
    Except String (Option Game) :=
  let text := cleanText rawText
  if text = "" then .ok none
  else if cfg.markers.all (fun mk => !hasSubS mk text) then .ok none
  else
    match dateOfText year text with
    | .error e => .error e
    | .ok none => .ok none
    | .ok (some date) =>
      match opponentOfText text with
      | none => .ok none
      | some opponent =>
        match venueOfText cfg.knownArenas text with
        | none => .ok none
        | some venue =>
          let st := parse_time text
          let ha0 := if cfg.homeArenas.any (fun a => hasSubS a venue) then "[HOME]" else "[AWAY]"
          let ha1 := if hasSubS "HOME" (upperStr text) then "[HOME]" else ha0
          let ha2 := if hasSubS "AWAY" (upperStr text) then "[AWAY]" else ha1
          .ok (some ⟨ha2, opponent, venue, date, st⟩)

/-- The heuristic loop over all candidate nodes (before deduplication);
an `.error` from one node aborts the whole scan, as the uncaught
exception does in the source. -/
def heurScan (cfg : HeurCfg) (year : Nat) : List String → Except String (List Game)
  | [] => .ok []
  | t :: rest =>
    match heurNode cfg year t with
    | .error e => .error e
    | .ok none => heurScan cfg year rest
    | .ok (some g) =>
      match heurScan cfg year rest with
      | .error e => .error e
      | .ok gs => .ok (g :: gs)

/-- A fetched month page, reduced to what the two passes consume: the
structured entries selected by `div.tmpl_schedule_list ...` and the
flattened texts of the heuristic candidate nodes (`el.get_text(" ")` for
each node of the `.p-schedule__item, ..., li, article, div` selection). -/
structure Doc where
  items : List ScheduleItem
  nodes : List String

/-- Shared shape of `parse_alvark_month` / `parse_sunrockers_month`: the
structured pass, then — only when it yields nothing — the heuristic scan,
deduplicated by identity key.  Fallback stage: -/
def heurFallback (cfg : HeurCfg) (year : Nat) (nodes : List String)
    (gs : List Game) : Except String (List Game) :=
  if gs ≠ [] then .ok gs
  else (heurScan cfg year nodes).map dedupByKey

/-- Dispatch on the structured pass result (part of the team parsers). -/
def parseTeamMonth (cfg : HeurCfg) (homeKw : List String) (year month : Nat)
    (doc : Doc) : Except String (List Game) :=
  match parseScheduleList year month homeKw doc.items with
  | .error e => .error e
  | .ok gs => heurFallback cfg year doc.nodes gs

/-- Heuristic constants of `parse_alvark_month`. -/
def alvarkCfg : HeurCfg :=
  ⟨["vs", "アルバルク東京", "東京"],
   ["TOYOTA ARENA TOKYO"],
   ["TOYOTA ARENA TOKYO", "おおきにアリーナ舞洲", "CNAアリーナ", "ゼビオアリーナ", "IGアリーナ"]⟩

/-- Embeds `parse_alvark_month(year, month, html)`. -/
def parse_alvark_month (year month : Nat) (doc : Doc) : Except String (List Game) :=
  parseTeamMonth alvarkCfg ["TOYOTA ARENA TOKYO"] year month doc

/-- Heuristic constants of `parse_sunrockers_month`. -/
def sunrockersCfg : HeurCfg :=
  ⟨["vs", "サンロッカーズ"],
   ["青山学院記念館", "ひがしんアリーナ"],
   ["青山学院記念館", "ひがしんアリーナ", "国立代々木競技場 第二体育館", "横浜BUNTAI", "IGアリーナ"]⟩

/-- Embeds `parse_sunrockers_month(year, month, html)`. -/
def parse_sunrockers_month (year month : Nat) (doc : Doc) : Except String (List Game) :=
  parseTeamMonth sunrockersCfg ["青山学院記念館", "ひがしんアリーナ"] year month doc

example : parse_alvark_month 2025 11 ⟨[], ["vs Foo 10.5 @Arena"]⟩ =
    .ok [⟨"[AWAY]", "Foo", "Arena", ⟨2025, 10, 5⟩, none⟩] := rfl
example : parse_alvark_month 2025 11 ⟨[], ["vs Foo 13.40 @Arena"]⟩ =
    .error "month must be in 1..12" := rfl
example : parseScheduleList 2025 10 ["K"]
      [⟨some "10.5", some "Opp", some "Ven", none, none⟩] =
    .ok [⟨"[AWAY]", "Opp", "Ven", ⟨2025, 10, 5⟩, none⟩] := rfl
example : heurNode alvarkCfg 2025 "Team vs Rival Club @ Main Arena 18:05 AWAY" =
    .ok none := rfl
example : heurNode alvarkCfg 2025 "3/4 Team vs Rival Club @ Main Arena 18:05 AWAY" =
    .ok (some ⟨"[AWAY]", "Rival", "Main", ⟨2025, 3, 4⟩, some "18:05"⟩) := rfl

/-- The body of `month_iter`'s `while` loop: fuelled because the Python
loop's termination relies on `1 ≤ m ≤ 12`, which real `datetime` months
always satisfy; the fuel passed by `monthIter` is exact for such months. -/
def monthIterAux : Nat → Nat → Nat → Nat → Nat → List (Nat × Nat)
  | 0, _, _, _, _ => []
  | fuel + 1, y, m, ey, em =>
    if y < ey ∨ (y = ey ∧ m ≤ em) then
      (y, m) :: (if m = 12 then monthIterAux fuel (y + 1) 1 ey em
                 else monthIterAux fuel y (m + 1) ey em)
    else []

/-- Embeds `month_iter(start, end)`: every `(year, month)` from the start month
while it is not past the end month. -/
def monthIter (sy sm ey em : Nat) : List (Nat × Nat) :=
  monthIterAux (12 * ey + em + 1 - (12 * sy + sm)) sy sm ey em

/-- The month following `(y, m)` (the loop's increment step). -/
def nextMonth (p : Nat × Nat) : Nat × Nat :=
  if p.2 = 12 then (p.1 + 1, 1) else (p.1, p.2 + 1)

example : monthIter 2025 10 2026 5 =
  [(2025, 10), (2025, 11), (2025, 12), (2026, 1), (2026, 2), (2026, 3), (2026, 4), (2026, 5)] := rfl
example : monthIter 2026 1 2025 1 = [] := rfl

/-- Python string comparison: code-point lexicographic strict order. -/
def listLt : List Char → List Char → Bool
  | [], [] => false
  | [], _ :: _ => true
  | _ :: _, [] => false
  | a :: as, b :: bs =>
    if a.toNat < b.toNat then true
    else if b.toNat < a.toNat then false
    else listLt as bs

/-- The second component of the sort key: `g.start_time or "23:59"`
(Python `or` replaces both `None` and `""` by the sentinel). -/
def timeKey (g : Game) : String :=
  match g.start_time with
  | none => "23:59"
  | some s => if s = "" then "23:59" else s

/-- The sort key `(g.date, g.start_time or "23:59", g.venue)` of
`scrape`, flattened: `datetime` comparison is lexicographic on
`(year, month, day)`. -/
def sortKey (g : Game) : Nat × Nat × Nat × String × String :=
  (g.date.year, g.date.month, g.date.day, timeKey g, g.venue)

/-- One numeric level of a lexicographic comparison: strictly smaller
wins, strictly greater loses, ties defer to `rest`. -/
def natThen (a b : Nat) (rest : Bool) : Bool :=
  if a < b then true else if b < a then false else rest

/-- One string level of a lexicographic comparison: strictly smaller wins,
strictly greater loses, ties defer to `rest`. -/
def strThen (a b : String) (rest : Bool) : Bool :=
  if listLt a.data b.data then true
  else if listLt b.data a.data then false
  else rest

/-- Non-strict lexicographic comparison of two sort keys (Python tuple
comparison of `(date, time, venue)` keys). -/
def tupLE (x y : Nat × Nat × Nat × String × String) : Bool :=
  natThen x.1 y.1 (natThen x.2.1 y.2.1 (natThen x.2.2.1 y.2.2.1
    (strThen x.2.2.2.1 y.2.2.2.1 (!listLt y.2.2.2.2.data x.2.2.2.2.data))))

/-- Embeds `a` may precede `b` in the sorted output. -/
def keyLE (a b : Game) : Bool := tupLE (sortKey a) (sortKey b)

/-- Embeds `all_games.sort(key=...)`: a stable sort by `keyLE`.  Python's sort is
stable, and a stable sort by a total preorder is unique, so Mathlib's
(stable) insertion sort computes exactly the list Timsort produces. -/
def sortGames (l : List Game) : List Game :=
  List.insertionSort (fun a b => keyLE a b = true) l

/-- The cross-month merge step of `scrape`: concatenate the per-month
result lists (`all_games.extend(games)`) and sort. -/
def merge (monthResults : List (List Game)) : List Game :=
  sortGames monthResults.flatten

/-- The fetch-and-parse loop of `scrape` over a list of months; the
fetcher is an external collaborator, passed as a function. -/
def collectMonths (team : String) (fetch : Nat → Nat → Doc) :
    List (Nat × Nat) → Except String (List Game)
  | [] => .ok []
  | (y, m) :: rest =>
    match (if team = "alvark" then parse_alvark_month y m (fetch y m)
           else parse_sunrockers_month y m (fetch y m)) with
    | .error e => .error e
    | .ok gs =>
      match collectMonths team fetch rest with
      | .error e => .error e
      | .ok more => .ok (gs ++ more)

/-- Embeds `scrape(team, start, end)` with the boundary months already split
into numbers and the fetcher abstracted. -/
def scrapeGames (team : String) (fetch : Nat → Nat → Doc) (sy sm ey em : Nat) :
    Except String (List Game) :=
  match collectMonths team fetch (monthIter sy sm ey em) with
  | .error e => .error e
  | .ok gs => .ok (sortGames gs)

/-- One divergence reported by `validate_csv` (the Python code renders
these as strings; the row index, both row contents and the two lengths
are exactly the data interpolated into those strings). -/
inductive DiffEntry where
  | row (idx : Nat) (actualRow expectedRow : List String)
  | lengthNote (actualLen expectedLen : Nat)
deriving DecidableEq

/-- The diff loop of `validate_csv`: walks both row lists in parallel
(`range(min(len, len))`), reporting differing rows as `Row i+2` and
stopping after `budget` (10) reports. -/
def collectRowDiffs (budget i : Nat) :
    List (List String) → List (List String) → List DiffEntry
  | [], _ => []
  | _, [] => []
  | a :: as, b :: bs =>
    if a = b then collectRowDiffs budget (i + 1) as bs
    else DiffEntry.row (i + 2) a b ::
      (if budget ≤ 1 then [] else collectRowDiffs (budget - 1) (i + 1) as bs)

/-- Embeds `validate_csv(actual, expected)` on the two files' data rows (both
already read by `read_csv`, which strips fields and checks the header):
`(ok, diffs)`. -/
def validateRows (act ex : List (List String)) : Bool × List DiffEntry :=
  if act = ex then (true, [])
  else
    (false,
     collectRowDiffs 10 0 act ex ++
       (if act.length ≠ ex.length then [DiffEntry.lengthNote act.length ex.length] else []))

/-- Number of row divergences (excluding the length note) in a report. -/
def rowCount : List DiffEntry → Nat
  | [] => 0
  | DiffEntry.row _ _ _ :: rest => rowCount rest + 1
  | DiffEntry.lengthNote _ _ :: rest => rowCount rest

example : validateRows [["a"], ["b"]] [["a"], ["b"]] = (true, []) := rfl
example : validateRows [["a"], ["b"], ["c"]] [["a"], ["x"], ["c"]] =
    (false, [DiffEntry.row 3 ["b"] ["x"]]) := rfl
example : validateRows [["a"]] [["a"], ["b"]] =
    (false, [DiffEntry.lengthNote 1 2]) := rfl

/-- Characters with equal code points are equal. -/
lemma char_eq_of_toNat_eq {a b : Char} (h : a.toNat = b.toNat) : a = b := by
  apply Char.ext
  apply UInt32.eq_of_val_eq
  apply Fin.ext
  exact h

lemma listLt_irrefl : ∀ l, listLt l l = false := by
  intro l
  induction l with
  | nil => rfl
  | cons a as ih => simp [listLt, ih]

lemma listLt_asymm : ∀ l1 l2, listLt l1 l2 = true → listLt l2 l1 = false := by
  intro l1
  induction l1 with
  | nil => intro l2 _; cases l2 <;> rfl
  | cons a as ih =>
    intro l2 h
    cases l2 with
    | nil => simp [listLt] at h
    | cons b bs =>
      simp only [listLt] at h ⊢
      split_ifs at h ⊢ <;> first | rfl | omega | exact ih bs h

lemma listLt_trans : ∀ l1 l2 l3, listLt l1 l2 = true → listLt l2 l3 = true →
    listLt l1 l3 = true := by
  intro l1
  induction l1 with
  | nil =>
    intro l2 l3 h1 h2
    cases l2 with
    | nil => simp [listLt] at h1
    | cons b bs => cases l3 with
      | nil => simp [listLt] at h2
      | cons c cs => rfl
  | cons a as ih =>
    intro l2 l3 h1 h2
    cases l2 with
    | nil => simp [listLt] at h1
    | cons b bs =>
      cases l3 with
      | nil => simp [listLt] at h2
      | cons c cs =>
        simp only [listLt] at h1 h2 ⊢
        split_ifs at h1 h2 ⊢ <;> first | rfl | omega | exact ih bs cs h1 h2

lemma listLt_connex : ∀ l1 l2, listLt l1 l2 = false → listLt l2 l1 = false →
    l1 = l2 := by
  intro l1
  induction l1 with
  | nil =>
    intro l2 h1 _
    cases l2 with
    | nil => rfl
    | cons b bs => simp [listLt] at h1
  | cons a as ih =>
    intro l2 h1 h2
    cases l2 with
    | nil => simp [listLt] at h2
    | cons b bs =>
      simp only [listLt] at h1 h2
      split_ifs at h1 h2 <;> try omega
      have hab : a = b := char_eq_of_toNat_eq (by omega)
      rw [hab, ih bs h1 h2]

/-- Strings incomparable under `listLt` are equal. -/
lemma string_eq_of_listLt {a b : String} (h1 : listLt a.data b.data = false)
    (h2 : listLt b.data a.data = false) : a = b := by
  have h3 := listLt_connex _ _ h1 h2
  cases a; cases b
  exact congrArg String.mk h3

/-- Trichotomy for the string order. -/
lemma listLt_cases (a b : String) :
    listLt a.data b.data = true ∨ a = b ∨ listLt b.data a.data = true := by
  by_cases h1 : listLt a.data b.data = true
  · left; exact h1
  · by_cases h2 : listLt b.data a.data = true
    · right; right; exact h2
    · right; left
      exact string_eq_of_listLt (by simpa using h1) (by simpa using h2)

lemma natThen_refl (a : Nat) (r : Bool) : natThen a a r = r := by
  simp [natThen]

lemma strThen_refl (s : String) (r : Bool) : strThen s s r = r := by
  simp [strThen, listLt_irrefl]

lemma natThen_total (a b : Nat) (r1 r2 : Bool) (h : r1 = true ∨ r2 = true) :
    natThen a b r1 = true ∨ natThen b a r2 = true := by
  unfold natThen
  rcases Nat.lt_trichotomy a b with hlt | heq | hgt
  · left; simp [hlt]
  · subst heq; simpa using h
  · right; simp [hgt]

lemma strThen_total (a b : String) (r1 r2 : Bool) (h : r1 = true ∨ r2 = true) :
    strThen a b r1 = true ∨ strThen b a r2 = true := by
  unfold strThen
  by_cases hab : listLt a.data b.data = true
  · left; simp [hab]
  · by_cases hba : listLt b.data a.data = true
    · right; simp [hba]
    · simp only [Bool.not_eq_true] at hab hba
      simp [hab, hba]
      rcases h with h | h
      · left; exact h
      · right; exact h

lemma natThen_trans (a b c : Nat) (r1 r2 r3 : Bool)
    (h : r1 = true → r2 = true → r3 = true) :
    natThen a b r1 = true → natThen b c r2 = true → natThen a c r3 = true := by
  unfold natThen
  split_ifs <;> intro h1 h2 <;> first | rfl | omega | exact h h1 h2 | simp_all

lemma strThen_trans (a b c : String) (r1 r2 r3 : Bool)
    (h : r1 = true → r2 = true → r3 = true) :
    strThen a b r1 = true → strThen b c r2 = true → strThen a c r3 = true := by
  intro h1 h2
  rcases listLt_cases a b with hab | rfl | hba
  · rcases listLt_cases b c with hbc | rfl | hcb
    · simp [strThen, listLt_trans _ _ _ hab hbc]
    · simp [strThen, hab]
    · simp [strThen, listLt_asymm _ _ hcb, hcb] at h2
  · rw [strThen_refl] at h1
    rcases listLt_cases a c with hac | rfl | hca
    · simp [strThen, hac]
    · rw [strThen_refl] at h2 ⊢
      exact h h1 h2
    · simp [strThen, listLt_asymm _ _ hca, hca] at h2
  · simp [strThen, listLt_asymm _ _ hba, hba] at h1

lemma tupLE_refl (x : Nat × Nat × Nat × String × String) : tupLE x x = true := by
  unfold tupLE
  rw [natThen_refl, natThen_refl, natThen_refl, strThen_refl]
  simp [listLt_irrefl]

lemma tupLE_total (x y : Nat × Nat × Nat × String × String) :
    tupLE x y = true ∨ tupLE y x = true := by
  unfold tupLE
  apply natThen_total
  apply natThen_total
  apply natThen_total
  apply strThen_total
  by_cases hv : listLt y.2.2.2.2.data x.2.2.2.2.data = true
  · right; simp [listLt_asymm _ _ hv]
  · left; simp only [Bool.not_eq_true] at hv; simp [hv]

lemma tupLE_trans (x y z : Nat × Nat × Nat × String × String)
    (h1 : tupLE x y = true) (h2 : tupLE y z = true) : tupLE x z = true := by
  unfold tupLE at h1 h2 ⊢
  revert h1 h2
  apply natThen_trans
  apply natThen_trans
  apply natThen_trans
  apply strThen_trans
  intro hv1 hv2
  simp only [Bool.not_eq_true'] at hv1 hv2 ⊢
  by_cases hzx : listLt z.2.2.2.2.data x.2.2.2.2.data = true
  · rcases listLt_cases x.2.2.2.2 y.2.2.2.2 with hxy | exy | hyx
    · have := listLt_trans _ _ _ hzx hxy
      rw [this] at hv2; cases hv2
    · rw [← exy] at hv2; rw [hv2] at hzx; cases hzx
    · rw [hyx] at hv1; cases hv1
  · simpa using hzx

lemma keyLE_refl (g : Game) : keyLE g g = true := tupLE_refl _

lemma keyLE_total (a b : Game) : keyLE a b = true ∨ keyLE b a = true :=
  tupLE_total _ _

lemma keyLE_trans (a b c : Game) (h1 : keyLE a b = true) (h2 : keyLE b c = true) :
    keyLE a c = true := tupLE_trans _ _ _ h1 h2

/-- Games with equal sort keys compare `keyLE` in both directions. -/
lemma keyLE_of_sortKey_eq {a b : Game} (h : sortKey a = sortKey b) :
    keyLE a b = true := by
  unfold keyLE
  rw [h]
  exact tupLE_refl _

/-- The sorted output of `scrape` is pairwise `keyLE`-ordered. -/
lemma sortGames_pairwise (l : List Game) :
    (sortGames l).Pairwise (fun a b => keyLE a b = true) := by
  letI : IsTotal Game (fun a b => keyLE a b = true) := ⟨keyLE_total⟩
  letI : IsTrans Game (fun a b => keyLE a b = true) := ⟨keyLE_trans⟩
  exact List.sorted_insertionSort _ l

/-- The sorted output is a permutation of the input: nothing is dropped,
duplicated or invented by the sort. -/
lemma sortGames_perm (l : List Game) : (sortGames l).Perm l :=
  List.perm_insertionSort _ l

/-- Inserting `g` commutes with filtering by a fixed sort key: `g` lands
in front of all elements of its own key class (elements it refuses to
pass have a strictly different key). -/
lemma filter_orderedInsert (k : Nat × Nat × Nat × String × String) (g : Game) :
    ∀ l : List Game,
      (List.orderedInsert (fun a b => keyLE a b = true) g l).filter
          (fun x => decide (sortKey x = k)) =
        if sortKey g = k then
          g :: l.filter (fun x => decide (sortKey x = k))
        else l.filter (fun x => decide (sortKey x = k)) := by
  intro l
  induction l with
  | nil =>
    simp only [List.orderedInsert, List.filter]
    by_cases hk : sortKey g = k <;> simp [hk]
  | cons b t ih =>
    by_cases hle : keyLE g b = true
    · simp only [List.orderedInsert, hle, if_true]
      by_cases hk : sortKey g = k
      · simp [List.filter, hk]
      · simp [List.filter, hk]
    · have hbk : sortKey g = k → sortKey b ≠ k := by
        intro hgk hbk2
        exact hle (keyLE_of_sortKey_eq (hgk.trans hbk2.symm))
      simp only [List.orderedInsert, hle, if_false]
      by_cases hk : sortKey g = k
      · have hb : ¬ (sortKey b = k) := hbk hk
        simp [List.filter, hb, ih, hk]
      · simp [List.filter, ih, hk]

/-- Stability of the sort: within each sort-key class the output order is
the input order. -/
lemma sortGames_stable (l : List Game) (k : Nat × Nat × Nat × String × String) :
    (sortGames l).filter (fun x => decide (sortKey x = k)) =
      l.filter (fun x => decide (sortKey x = k)) := by
  induction l with
  | nil => rfl
  | cons g t ih =>
    show (List.orderedInsert _ g (sortGames t)).filter _ = _
    rw [filter_orderedInsert k g (sortGames t)]
    by_cases hk : sortKey g = k
    · simp [List.filter, hk, ih]
    · simp [List.filter, hk, ih]

lemma digitChar_toNat (d : Nat) (hd : d ≤ 9) : (Nat.digitChar d).toNat = 48 + d := by
  interval_cases d <;> rfl

lemma digitVal_le_nine {c : Char} (h : isDig c = true) : digitVal c ≤ 9 := by
  simp only [isDig, decide_eq_true_eq] at h
  unfold digitVal
  omega

lemma timeAt2_le {cs : List Char} {hh mm : Nat} (h : timeAt2 cs = some (hh, mm)) :
    hh ≤ 99 ∧ mm ≤ 99 := by
  unfold timeAt2 at h
  split at h
  · rename_i d1 d2 c e1 e2 _
    split_ifs at h with hc
    obtain ⟨hd1, hd2, _, he1, he2⟩ := hc
    have := digitVal_le_nine hd1
    have := digitVal_le_nine hd2
    have := digitVal_le_nine he1
    have := digitVal_le_nine he2
    injection h with h2
    obtain ⟨rfl, rfl⟩ := Prod.mk.injEq .. ▸ Prod.mk.inj h2
    omega
  · exact Option.noConfusion h

lemma timeAt1_le {cs : List Char} {hh mm : Nat} (h : timeAt1 cs = some (hh, mm)) :
    hh ≤ 99 ∧ mm ≤ 99 := by
  unfold timeAt1 at h
  split at h
  · rename_i d1 c e1 e2 _
    split_ifs at h with hc
    obtain ⟨hd1, _, he1, he2⟩ := hc
    have := digitVal_le_nine hd1
    have := digitVal_le_nine he1
    have := digitVal_le_nine he2
    injection h with h2
    obtain ⟨rfl, rfl⟩ := Prod.mk.injEq .. ▸ Prod.mk.inj h2
    omega
  · exact Option.noConfusion h

lemma timeSearch_le : ∀ {cs : List Char} {hh mm : Nat},
    timeSearch cs = some (hh, mm) → hh ≤ 99 ∧ mm ≤ 99 := by
  intro cs
  induction cs with
  | nil => intro hh mm h; exact Option.noConfusion h
  | cons c rest ih =>
    intro hh mm h
    unfold timeSearch at h
    split at h
    · rename_i r h2
      injection h with h3
      rw [h3] at h2
      exact timeAt2_le h2
    · split at h
      · rename_i r h1
        injection h with h3
        rw [h3] at h1
        exact timeAt1_le h1
      · exact ih h

lemma matchH24_digits (q r : Nat) (hq : q ≤ 9) (hr : r ≤ 9) (rest : List Char) :
    matchH24 (Nat.digitChar q :: Nat.digitChar r :: rest) =
      if 10 * q + r ≤ 23 then some (10 * q + r, rest)
      else some (q, Nat.digitChar r :: rest) := by
  interval_cases q <;> interval_cases r <;> rfl

lemma matchM60_digits (q r : Nat) (hq : q ≤ 9) (hr : r ≤ 9) (rest : List Char) :
    matchM60 (Nat.digitChar q :: Nat.digitChar r :: rest) =
      if q ≤ 5 then some (10 * q + r, rest)
      else some (q, Nat.digitChar r :: rest) := by
  interval_cases q <;> interval_cases r <;> rfl

lemma fmtHM_data (hh mm : Nat) :
    (fmtHM hh mm).data =
      [Nat.digitChar (hh / 10 % 10), Nat.digitChar (hh % 10), ':',
       Nat.digitChar (mm / 10 % 10), Nat.digitChar (mm % 10)] := by
  simp [fmtHM, pad2, String.data_append]

lemma fmtHM_ne_empty (hh mm : Nat) : fmtHM hh mm ≠ "" := by
  intro h
  have h2 := congrArg String.data h
  rw [fmtHM_data] at h2
  exact List.noConfusion h2

lemma digitChar_ne_colon (d : Nat) (hd : d ≤ 9) : Nat.digitChar d ≠ ':' := by
  intro h
  have h2 := congrArg Char.toNat h
  rw [digitChar_toNat d hd] at h2
  simp at h2
  omega

/-- Reducing `parseHM` once the hour match is known. -/
lemma parseHM_eq_tail (cs : List Char) (hh : Nat) (rest : List Char)
    (h : matchH24 cs = some (hh, rest)) : parseHM cs = parseHMTail hh rest := by
  unfold parseHM
  rw [h]

/-- Reducing the minutes stage once the minute match is known. -/
lemma parseHMMin_some (hh mm : Nat) (rest2 rest3 : List Char)
    (h : matchM60 rest2 = some (mm, rest3)) :
    parseHMMin hh rest2 =
      if rest3 = [] then .ok (hh, mm) else .error "unconverted data remains" := by
  unfold parseHMMin
  rw [h]

/-- Re-parsing a formatted `hh:mm` token with `%H:%M` fails when a
component is out of range. -/
lemma parseHM_fmt_not_ok (hh mm : Nat) (hhh : hh ≤ 99) (hmm : mm ≤ 99)
    (hout : 23 < hh ∨ 59 < mm) : (parseHM (fmtHM hh mm).data).isOk = false := by
  rw [fmtHM_data]
  by_cases hcase : 10 * (hh / 10 % 10) + hh % 10 ≤ 23
  · have hh23 : hh ≤ 23 := by omega
    have hmm60 : 59 < mm := by omega
    have h24 : matchH24 [Nat.digitChar (hh / 10 % 10), Nat.digitChar (hh % 10), ':',
        Nat.digitChar (mm / 10 % 10), Nat.digitChar (mm % 10)] =
        some (10 * (hh / 10 % 10) + hh % 10,
          [':', Nat.digitChar (mm / 10 % 10), Nat.digitChar (mm % 10)]) := by
      rw [matchH24_digits (hh / 10 % 10) (hh % 10) (by omega) (by omega), if_pos hcase]
    rw [parseHM_eq_tail _ _ _ h24]
    simp only [parseHMTail, if_true]
    have h60 : matchM60 [Nat.digitChar (mm / 10 % 10), Nat.digitChar (mm % 10)] =
        some (mm / 10 % 10, [Nat.digitChar (mm % 10)]) := by
      rw [matchM60_digits (mm / 10 % 10) (mm % 10) (by omega) (by omega),
        if_neg (by omega)]
    rw [parseHMMin_some _ _ _ _ h60]
    rw [if_neg (by simp)]
    rfl
  · have h24 : matchH24 [Nat.digitChar (hh / 10 % 10), Nat.digitChar (hh % 10), ':',
        Nat.digitChar (mm / 10 % 10), Nat.digitChar (mm % 10)] =
        some (hh / 10 % 10, [Nat.digitChar (hh % 10), ':',
          Nat.digitChar (mm / 10 % 10), Nat.digitChar (mm % 10)]) := by
      rw [matchH24_digits (hh / 10 % 10) (hh % 10) (by omega) (by omega), if_neg hcase]
    rw [parseHM_eq_tail _ _ _ h24]
    simp only [parseHMTail]
    rw [if_neg (digitChar_ne_colon (hh % 10) (by omega))]
    rfl

/-- Every value held by the deduplication dictionary after the fold comes
from the processed games (the dictionary only ever stores input games). -/
lemma foldl_insertKeyed_pred (P : Game → Prop) :
    ∀ (gs : List Game) (acc : List ((String × String × String) × Game)),
      (∀ p ∈ acc, P p.2) → (∀ g ∈ gs, P g) →
      ∀ p ∈ gs.foldl insertKeyed acc, P p.2 := by
  intro gs
  induction gs with
  | nil =>
    intro acc hacc _ p hp
    exact hacc p hp
  | cons g rest ih =>
    intro acc hacc hgs p hp
    rw [List.foldl_cons] at hp
    refine ih (insertKeyed acc g) ?_ (fun x hx => hgs x (List.mem_cons_of_mem _ hx)) p hp
    intro q hq
    unfold insertKeyed at hq
    split_ifs at hq
    · obtain ⟨p0, hp0, hq2⟩ := List.mem_map.mp hq
      by_cases hkey : p0.1 = gameKey g
      · rw [if_pos hkey] at hq2
        rw [← hq2]
        exact hgs g (List.mem_cons_self g rest)
      · rw [if_neg hkey] at hq2
        rw [← hq2]
        exact hacc p0 hp0
    · rcases List.mem_append.mp hq with h | h
      · exact hacc q h
      · simp only [List.mem_singleton] at h
        rw [h]
        exact hgs g (List.mem_cons_self g rest)

/-- Deduplication never invents records: every surviving game is one of
the input games. -/
lemma dedupByKey_pred (P : Game → Prop) (gs : List Game) (h : ∀ g ∈ gs, P g) :
    ∀ g' ∈ dedupByKey gs, P g' := by
  intro g' hg'
  obtain ⟨p, hp, hpe⟩ := List.mem_map.mp hg'
  rw [← hpe]
  exact foldl_insertKeyed_pred P gs [] (by simp) h p hp

lemma mkDate_ok {y m d : Nat} {dt : Date} (h : mkDate y m d = .ok dt) :
    dt = ⟨y, m, d⟩ := by
  unfold mkDate at h
  split_ifs at h
  injection h with h2
  exact h2.symm

/-- The date stage only ever accepts the target month. -/
lemma parseItemDate_month {year month : Nat} {dayT : String} {date : Date}
    (h : parseItemDate year month dayT = .ok (some date)) : date.month = month := by
  unfold parseItemDate at h
  split at h
  · exact Option.noConfusion (Except.ok.inj h)
  · rename_i mo dy hs
    split_ifs at h with hmo
    · cases hm : mkDate year mo dy with
      | error e => rw [hm] at h; exact Except.noConfusion h
      | ok dt =>
        rw [hm] at h
        simp only [Except.map] at h
        injection h with h2
        injection h2 with h3
        rw [← h3, mkDate_ok hm]
        exact hmo
    · exact Option.noConfusion (Except.ok.inj h)

/-- A game surviving one structured-pass entry carries the target month. -/
lemma parseItem_month {year month : Nat} {kw : List String} {it : ScheduleItem}
    {g : Game} (h : parseItem year month kw it = .ok (some g)) :
    g.date.month = month := by
  unfold parseItem at h
  split at h
  · rename_i dayT oppT venT
    split at h
    · exact Except.noConfusion h
    · exact Option.noConfusion (Except.ok.inj h)
    · rename_i date hdt
      injection h with h2
      injection h2 with h3
      rw [← h3]
      simp only [mkStructGame]
      exact parseItemDate_month hdt
  · exact Option.noConfusion (Except.ok.inj h)

/-- Every game collected by the structured loop carries the target month. -/
lemma collectItems_month {year month : Nat} {kw : List String} :
    ∀ {items : List ScheduleItem} {gs : List Game},
      collectItems year month kw items = .ok gs →
      ∀ g ∈ gs, g.date.month = month := by
  intro items
  induction items with
  | nil =>
    intro gs h g hg
    injection h with h2
    rw [← h2] at hg
    exact absurd hg (List.not_mem_nil g)
  | cons it rest ih =>
    intro gs h g hg
    unfold collectItems at h
    split at h
    · exact Except.noConfusion h
    · exact ih h g hg
    · rename_i g0 hit
      split at h
      · exact Except.noConfusion h
      · rename_i gs0 hrest
        injection h with h2
        rw [← h2] at hg
        rcases List.mem_cons.mp hg with hg0 | hgs
        · rw [hg0]
          exact parseItem_month hit
        · exact ih hrest g hgs

/-- Embeds `monthIterAux` is empty as soon as the loop condition fails. -/
lemma monthIterAux_nil {y m ey em : Nat}
    (h : ¬(y < ey ∨ (y = ey ∧ m ≤ em))) :
    ∀ fuel, monthIterAux fuel y m ey em = [] := by
  intro fuel
  cases fuel with
  | zero => rfl
  | succ n => rw [monthIterAux, if_neg h]

/-- Core induction for `month_iter` on valid months: the produced list has
exactly `fuel` entries, each entry is followed by its successor month, and
the list starts (when non-empty) at the start month. -/
lemma monthIterAux_spec (ey em : Nat) (hem1 : 1 ≤ em) (hem2 : em ≤ 12) :
    ∀ fuel y m, 1 ≤ m → m ≤ 12 → fuel = 12 * ey + em + 1 - (12 * y + m) →
      (monthIterAux fuel y m ey em).length = fuel ∧
      List.Chain' (fun p q => q = nextMonth p) (monthIterAux fuel y m ey em) ∧
      ∀ p, (monthIterAux fuel y m ey em).head? = some p → p = (y, m) := by
  intro fuel
  induction fuel with
  | zero =>
    intro y m _ _ _
    refine ⟨rfl, List.chain'_nil, ?_⟩
    intro p hp
    exact Option.noConfusion hp
  | succ n ih =>
    intro y m hm1 hm2 hfuel
    have hcond : y < ey ∨ (y = ey ∧ m ≤ em) := by omega
    rw [monthIterAux, if_pos hcond]
    by_cases hm12 : m = 12
    · subst hm12
      rw [if_pos rfl]
      have hnext := ih (y + 1) 1 (by omega) (by omega) (by omega)
      refine ⟨by simpa using hnext.1, ?_, ?_⟩
      · rw [List.chain'_cons']
        refine ⟨?_, hnext.2.1⟩
        intro q hq
        rw [hnext.2.2 q (Option.mem_def.mp hq)]
        simp [nextMonth]
      · intro p hp
        simp only [List.head?_cons, Option.some.injEq] at hp
        exact hp.symm
    · rw [if_neg hm12]
      have hnext := ih y (m + 1) (by omega) (by omega) (by omega)
      refine ⟨by simpa using hnext.1, ?_, ?_⟩
      · rw [List.chain'_cons']
        refine ⟨?_, hnext.2.1⟩
        intro q hq
        rw [hnext.2.2 q (Option.mem_def.mp hq)]
        simp [nextMonth, hm12]
      · intro p hp
        simp only [List.head?_cons, Option.some.injEq] at hp
        exact hp.symm

/-- The successor-month step strictly increases the `(year, month)` pair. -/
lemma nextMonth_lt (p : Nat × Nat) :
    p.1 < (nextMonth p).1 ∨ (p.1 = (nextMonth p).1 ∧ p.2 < (nextMonth p).2) := by
  unfold nextMonth
  split_ifs with h
  · left; simp
  · right; simp

lemma rowCount_append (l1 l2 : List DiffEntry) :
    rowCount (l1 ++ l2) = rowCount l1 + rowCount l2 := by
  induction l1 with
  | nil => simp [rowCount]
  | cons e rest ih =>
    cases e with
    | row idx a b => simp [rowCount, ih]; omega
    | lengthNote a b => simp [rowCount, ih]

lemma rowCount_le_length (l : List DiffEntry) : rowCount l ≤ l.length := by
  induction l with
  | nil => simp [rowCount]
  | cons e rest ih =>
    cases e with
    | row idx a b => simp [rowCount]; omega
    | lengthNote a b => simp [rowCount]; omega

/-- The diff loop reports at most `budget` rows. -/
lemma collectRowDiffs_length :
    ∀ (as bs : List (List String)) (budget i : Nat), 1 ≤ budget →
      (collectRowDiffs budget i as bs).length ≤ budget := by
  intro as
  induction as with
  | nil => intro bs budget i _; simp [collectRowDiffs]
  | cons a as ih =>
    intro bs budget i hb
    cases bs with
    | nil => simp [collectRowDiffs]
    | cons b bs =>
      unfold collectRowDiffs
      split_ifs with heq hb1
      · exact ih bs budget (i + 1) hb
      · simpa using hb
      · simp only [List.length_cons]
        have := ih bs (budget - 1) (i + 1) (by omega)
        omega

/-- Every reported row divergence points at a real difference: entry
`Row (i + j + 2)` shows exactly the rows at list offset `j`, and they
differ. -/
lemma collectRowDiffs_mem :
    ∀ (as bs : List (List String)) (budget i : Nat) (e : DiffEntry),
      e ∈ collectRowDiffs budget i as bs →
      ∃ j a b, e = DiffEntry.row (i + j + 2) a b ∧
        as.get? j = some a ∧ bs.get? j = some b ∧ a ≠ b := by
  intro as
  induction as with
  | nil => intro bs budget i e he; simp [collectRowDiffs] at he
  | cons a as ih =>
    intro bs budget i e he
    cases bs with
    | nil => simp [collectRowDiffs] at he
    | cons b bs =>
      unfold collectRowDiffs at he
      split_ifs at he with heq hb1
      · obtain ⟨j, a0, b0, hrow, ha, hb, hne⟩ := ih bs budget (i + 1) e he
        exact ⟨j + 1, a0, b0, by rw [hrow]; ring_nf, by simpa using ha, by simpa using hb, hne⟩
      · simp only [List.mem_singleton] at he
        exact ⟨0, a, b, by rw [he], rfl, rfl, heq⟩
      · rcases List.mem_cons.mp he with he0 | herest
        · exact ⟨0, a, b, by rw [he0], rfl, rfl, heq⟩
        · obtain ⟨j, a0, b0, hrow, ha, hb, hne⟩ := ih bs (budget - 1) (i + 1) e herest
          exact ⟨j + 1, a0, b0, by rw [hrow]; ring_nf, by simpa using ha, by simpa using hb, hne⟩

/-- Reducing a team parser once the structured pass result is known. -/
lemma parseTeamMonth_ok {cfg : HeurCfg} {homeKw : List String} {year month : Nat}
    {doc : Doc} {gs : List Game}
    (h : parseScheduleList year month homeKw doc.items = .ok gs) :
    parseTeamMonth cfg homeKw year month doc = heurFallback cfg year doc.nodes gs := by
  unfold parseTeamMonth
  rw [h]

/-- C1 (amended claim, proved part): every `Game` returned by the
structured extraction pass (`_parse_schedule_list`) has `date.month` equal
to the target month — entries whose parsed month differs are discarded.
(The heuristic pass performs no such check; see the counterexample.) -/
theorem structured_pass_month_invariant (year month : Nat) (kw : List String)
    (items : List ScheduleItem) (gs : List Game)
    (h : parseScheduleList year month kw items = .ok gs) :
    ∀ g ∈ gs, g.date.month = month := by
  unfold parseScheduleList at h
  cases hc : collectItems year month kw items with
  | error e =>
    rw [hc] at h
    simp [Except.map] at h
  | ok gs0 =>
    rw [hc] at h
    simp only [Except.map] at h
    injection h with h2
    rw [← h2]
    exact dedupByKey_pred _ gs0 (collectItems_month hc)

/-- C1 witness: the structured pass on one concrete entry for 2025-10
keeps the entry, and the theorem yields its month. -/
theorem structured_pass_month_invariant_witness :
    (⟨"[AWAY]", "Opp", "Ven", ⟨2025, 10, 5⟩, none⟩ : Game).date.month = 10 :=
  structured_pass_month_invariant 2025 10 ["K"]
    [⟨some "10.5", some "Opp", some "Ven", none, none⟩]
    [⟨"[AWAY]", "Opp", "Ven", ⟨2025, 10, 5⟩, none⟩] rfl
    ⟨"[AWAY]", "Opp", "Ven", ⟨2025, 10, 5⟩, none⟩ (by simp)

/-- C1 counterexample: the heuristic pass has no month check.  Target
month 11, structured pass empty, one candidate node dated `10.5`: the
record is returned with `date.month = 10 ≠ 11` instead of being
discarded. -/
theorem heuristic_month_mismatch_kept :
    parse_alvark_month 2025 11 ⟨[], ["vs Foo 10.5 @Arena"]⟩ =
      .ok [⟨"[AWAY]", "Foo", "Arena", ⟨2025, 10, 5⟩, none⟩] ∧
    (⟨2025, 10, 5⟩ : Date).month ≠ 11 := ⟨rfl, by decide⟩

/-- C2 (amended claim): a candidate node whose matched date digits form an
ill-formed calendar date does not merely skip that node — the `datetime`
`ValueError` propagates and aborts the whole heuristic scan, so the
extractor errors instead of returning normally. -/
theorem heuristic_node_error_propagates (year month : Nat)
    (items : List ScheduleItem) (t : String) (rest : List String) (e : String)
    (hs : parseScheduleList year month ["TOYOTA ARENA TOKYO"] items = .ok [])
    (hn : heurNode alvarkCfg year t = .error e) :
    parse_alvark_month year month ⟨items, t :: rest⟩ = .error e := by
  unfold parse_alvark_month
  rw [parseTeamMonth_ok hs]
  unfold heurFallback
  rw [if_neg (by simp)]
  unfold heurScan
  rw [hn]
  rfl

/-- C2 witness: an empty structured pass and a node matching month 13
abort the Alvark extractor with `datetime`'s month error. -/
theorem heuristic_node_error_propagates_witness :
    parse_alvark_month 2025 7 ⟨[], ["vs Foo 13.40 @Arena"]⟩ =
      .error "month must be in 1..12" :=
  heuristic_node_error_propagates 2025 7 [] "vs Foo 13.40 @Arena" []
    "month must be in 1..12" rfl rfl

/-- C2 counterexample: on a concrete document whose only candidate node
matches the ill-formed date `13.40`, the extractor raises (returns
`.error`) rather than skipping the node and returning normally. -/
theorem heuristic_bad_date_aborts :
    parse_alvark_month 2025 11 ⟨[], ["vs Foo 13.40 @Arena"]⟩ =
      .error "month must be in 1..12" := rfl

/-- C3 (amended claim): the merge step of `scrape` performs no cross-month
deduplication — it concatenates the per-month results and sorts them, a
permutation of the concatenation, so records sharing an identity key
across month boundaries all survive. -/
theorem merge_no_cross_month_dedup (monthResults : List (List Game)) :
    (merge monthResults).Perm monthResults.flatten :=
  sortGames_perm monthResults.flatten

/-- C3 counterexample: a fixture node re-listed by the pages of both
2025-10 and 2025-11 (the heuristic pass keeps it in both months) appears
twice — with the same identity key — in `scrape`'s final output. -/
theorem scrape_relists_cross_month_fixture :
    scrapeGames "alvark" (fun _ _ => ⟨[], ["vs Foo 10.31 @Arena"]⟩) 2025 10 2025 11 =
      .ok [⟨"[AWAY]", "Foo", "Arena", ⟨2025, 10, 31⟩, none⟩,
           ⟨"[AWAY]", "Foo", "Arena", ⟨2025, 10, 31⟩, none⟩] := rfl

/-- C4 (amended claim): the final sequence is stably sorted by the total
lexicographic key (date, `start_time or "23:59"`, venue): it is pairwise
`keyLE`-ordered, a permutation of the concatenated input, the order is
total, and equal-key records keep their input order (stability).  An
absent start time sorts as the sentinel `"23:59"` — after every earlier
time, but tied with a literal `23:59` and before lexicographically larger
tokens — not after all present times. -/
theorem merge_sorted_by_sentinel_key (monthResults : List (List Game)) :
    (merge monthResults).Pairwise (fun a b => keyLE a b = true) ∧
    (merge monthResults).Perm monthResults.flatten ∧
    (∀ a b : Game, keyLE a b = true ∨ keyLE b a = true) ∧
    (∀ k, (merge monthResults).filter (fun x => decide (sortKey x = k)) =
      monthResults.flatten.filter (fun x => decide (sortKey x = k))) :=
  ⟨sortGames_pairwise monthResults.flatten, sortGames_perm monthResults.flatten,
   keyLE_total, fun k => sortGames_stable monthResults.flatten k⟩

/-- C4 counterexample: two games on the same date, one timed `23:59` at
venue `"Zv"`, one with absent time at venue `"Av"`.  The absent-time
fixture is ordered *before* the timed one (the sentinel ties with the
real `23:59` and the venue decides), contradicting "absent start time
ordered after every present start time on the same date". -/
theorem merge_sentinel_tie_counterexample :
    merge [[⟨"[HOME]", "Opp", "Zv", ⟨2025, 10, 5⟩, some "23:59"⟩,
            ⟨"[HOME]", "Opp", "Av", ⟨2025, 10, 5⟩, none⟩]] =
      [⟨"[HOME]", "Opp", "Av", ⟨2025, 10, 5⟩, none⟩,
       ⟨"[HOME]", "Opp", "Zv", ⟨2025, 10, 5⟩, some "23:59"⟩] := rfl

/-- C5 (amended claim): with start strictly after end the Month Range
Planner yields the *empty* month sequence — no `InvalidRange` failure
exists — and `scrape` consequently performs no fetch and returns an empty
result normally. -/
theorem month_iter_reversed (sy sm ey em : Nat)
    (h1 : 1 ≤ sm) (h2 : sm ≤ 12) (h3 : 1 ≤ em) (h4 : em ≤ 12)
    (h5 : ey < sy ∨ (ey = sy ∧ em < sm)) :
    monthIter sy sm ey em = [] ∧
    ∀ (team : String) (fetch : Nat → Nat → Doc),
      scrapeGames team fetch sy sm ey em = .ok [] := by
  have hcond : ¬(sy < ey ∨ (sy = ey ∧ sm ≤ em)) := by omega
  have hempty : monthIter sy sm ey em = [] := monthIterAux_nil hcond _
  refine ⟨hempty, ?_⟩
  intro team fetch
  unfold scrapeGames
  rw [hempty]
  rfl

/-- C5 witness: a concrete reversed range yields the empty plan and an
empty, error-free scrape. -/
theorem month_iter_reversed_witness :
    monthIter 2026 2 2026 1 = [] ∧
    scrapeGames "sunrockers" (fun _ _ => ⟨[], []⟩) 2026 2 2026 1 = .ok [] := by
  have h := month_iter_reversed 2026 2 2026 1 (by decide) (by decide) (by decide)
    (by decide) (by omega)
  exact ⟨h.1, h.2 "sunrockers" (fun _ _ => ⟨[], []⟩)⟩

/-- C5 counterexample: for start 2026-01 strictly after end 2025-01 the
planner returns normally with the empty sequence and `scrape` returns
`.ok []` — no `InvalidRange` (or any) failure is surfaced. -/
theorem invalid_range_no_error :
    monthIter 2026 1 2025 1 = [] ∧
    scrapeGames "alvark" (fun _ _ => ⟨[], []⟩) 2026 1 2025 1 = .ok [] := ⟨rfl, rfl⟩

/-- C6: for valid month boundaries with start ≤ end, `month_iter` yields
exactly the number of calendar months spanned (inclusive), each entry
followed by its successor month (no gaps), strictly ascending (no
repeats), starting at the start month; it is a pure function of its two
boundary arguments. -/
theorem month_iter_spec (sy sm ey em : Nat)
    (h1 : 1 ≤ sm) (h2 : sm ≤ 12) (h3 : 1 ≤ em) (h4 : em ≤ 12)
    (h5 : 12 * sy + sm ≤ 12 * ey + em) :
    (monthIter sy sm ey em).length = 12 * ey + em + 1 - (12 * sy + sm) ∧
    List.Chain' (fun p q => q = nextMonth p) (monthIter sy sm ey em) ∧
    List.Pairwise (fun p q : Nat × Nat => p.1 < q.1 ∨ (p.1 = q.1 ∧ p.2 < q.2))
      (monthIter sy sm ey em) ∧
    ∀ p, (monthIter sy sm ey em).head? = some p → p = (sy, sm) := by
  have hspec := monthIterAux_spec ey em h3 h4
    (12 * ey + em + 1 - (12 * sy + sm)) sy sm h1 h2 rfl
  refine ⟨hspec.1, hspec.2.1, ?_, hspec.2.2⟩
  have hchain : List.Chain'
      (fun p q : Nat × Nat => p.1 < q.1 ∨ (p.1 = q.1 ∧ p.2 < q.2))
      (monthIter sy sm ey em) := by
    refine List.Chain'.imp ?_ hspec.2.1
    intro a b hab
    rw [hab]
    exact nextMonth_lt a
  letI : IsTrans (Nat × Nat)
      (fun p q : Nat × Nat => p.1 < q.1 ∨ (p.1 = q.1 ∧ p.2 < q.2)) :=
    ⟨by intro a b c hab hbc; omega⟩
  exact List.chain'_iff_pairwise.mp hchain

/-- C6 witness: the season range 2025-10..2026-05 spans 8 months. -/
theorem month_iter_spec_witness :
    (monthIter 2025 10 2026 5).length = 12 * 2026 + 5 + 1 - (12 * 2025 + 10) ∧
    List.Chain' (fun p q => q = nextMonth p) (monthIter 2025 10 2026 5) ∧
    List.Pairwise (fun p q : Nat × Nat => p.1 < q.1 ∨ (p.1 = q.1 ∧ p.2 < q.2))
      (monthIter 2025 10 2026 5) ∧
    ∀ p, (monthIter 2025 10 2026 5).head? = some p → p = (2025, 10) :=
  month_iter_spec 2025 10 2026 5 (by decide) (by decide) (by decide) (by decide)
    (by omega)

/-- C7: `parse_time` returns absent whenever the text contains the
literal `"未定"` marker — regardless of any digit patterns, since the
marker check short-circuits before the digit search — and otherwise
returns exactly the first `\d{1,2}:\d{2}` match with both components
zero-padded (absent when no such pattern occurs, since `Option.map` of
`none` is `none`). -/
theorem parse_time_undecided_priority (s : String) :
    (hasSub mitei s.data = true → parse_time s = none) ∧
    (hasSub mitei s.data = false →
      parse_time s = (timeSearch s.data).map (fun p => fmtHM p.1 p.2)) := by
  constructor
  · intro h
    simp [parse_time, h]
  · intro h
    simp only [parse_time, h, Bool.false_eq_true, if_false]
    cases ht : timeSearch s.data with
    | none => rfl
    | some p => cases p; rfl

/-- C7 witness: the marker wins over co-occurring digits, and without the
marker the first match is returned zero-padded. -/
theorem parse_time_undecided_priority_witness :
    parse_time "Gate 19:05 時刻未定" = none ∧
    parse_time "19:05 tip-off" = some "19:05" :=
  ⟨(parse_time_undecided_priority "Gate 19:05 時刻未定").1 rfl,
   ((parse_time_undecided_priority "19:05 tip-off").2 rfl).trans rfl⟩

/-- C8 (amended claim): for an absent (or empty, Python-falsy) start time
the row carries the time-undecided subject suffix, empty time columns,
both date columns equal to the fixture date and `All Day Event = "True"`;
for a present, well-formed start time the end time is start plus exactly
150 minutes *as a wall clock, modulo 24 hours*, `All Day Event = "False"`
— and the End Date column always equals the fixture date, also when
start + 150 minutes crosses midnight (it does not reflect the end
instant's calendar date). -/
theorem to_row_columns (g : Game) :
    (g.start_time = none →
      Game.to_row g = .ok [subjBase g ++ " ※時刻未定", dstr g.date, "",
        dstr g.date, "", "True", g.venue]) ∧
    (∀ s hh mm, g.start_time = some s → s ≠ "" → parseHM s.data = .ok (hh, mm) →
      Game.to_row g = .ok [subjBase g, dstr g.date, fmtHM hh mm, dstr g.date,
        fmtHM ((hh * 60 + mm + 150) / 60 % 24) ((hh * 60 + mm + 150) % 60),
        "False", g.venue]) := by
  constructor
  · intro h
    unfold Game.to_row
    rw [h]
    rfl
  · intro s hh mm hst hne hp
    unfold Game.to_row
    rw [hst]
    simp only [rowFromTime]
    rw [if_neg hne, hp]
    rfl

/-- C8 witness: a 19:05 fixture ends at 21:35 the same day; an
undecided-time fixture produces the all-day row. -/
theorem to_row_columns_witness :
    Game.to_row ⟨"[HOME]", "Opp", "Ven", ⟨2025, 10, 5⟩, some "19:05"⟩ =
      .ok ["[HOME] vs Opp@Ven", "2025-10-05", "19:05", "2025-10-05", "21:35",
           "False", "Ven"] ∧
    Game.to_row ⟨"[AWAY]", "Opp", "Ven", ⟨2025, 10, 5⟩, none⟩ =
      .ok ["[AWAY] vs Opp@Ven ※時刻未定", "2025-10-05", "", "2025-10-05", "",
           "True", "Ven"] :=
  ⟨((to_row_columns ⟨"[HOME]", "Opp", "Ven", ⟨2025, 10, 5⟩, some "19:05"⟩).2
      "19:05" 19 5 rfl (by decide) rfl).trans rfl,
   ((to_row_columns ⟨"[AWAY]", "Opp", "Ven", ⟨2025, 10, 5⟩, none⟩).1 rfl).trans rfl⟩

/-- C8 counterexample: a 23:00 fixture ends at 01:30 the *next* day
(2025-10-06), yet the End Date column still shows the fixture date
2025-10-05 — the code writes `start_dt`'s date into End Date, so End Date
does not reflect the computed end instant's calendar date. -/
theorem to_row_end_date_counterexample :
    Game.to_row ⟨"[HOME]", "Opp", "Ven", ⟨2025, 10, 5⟩, some "23:00"⟩ =
      .ok ["[HOME] vs Opp@Ven", "2025-10-05", "23:00", "2025-10-05", "01:30",
           "False", "Ven"] := rfl

/-- C9: the Diff Validator reports equality (with an empty report) exactly
when the two data-row sequences are equal; on inequality it reports at
most 10 row divergences, each referencing data row `j` as header-offset
row `j + 2` and showing both rows' (differing) contents, plus — exactly
when the record counts differ — one final length note. -/
theorem validate_csv_spec (act ex : List (List String)) :
    ((validateRows act ex).1 = true ↔ act = ex) ∧
    (act = ex → (validateRows act ex).2 = []) ∧
    rowCount (validateRows act ex).2 ≤ 10 ∧
    (∀ idx a b, DiffEntry.row idx a b ∈ (validateRows act ex).2 →
      ∃ j, idx = j + 2 ∧ act.get? j = some a ∧ ex.get? j = some b ∧ a ≠ b) ∧
    (act ≠ ex ∧ act.length ≠ ex.length →
      (validateRows act ex).2 =
        collectRowDiffs 10 0 act ex ++ [DiffEntry.lengthNote act.length ex.length]) ∧
    (act.length = ex.length →
      ∀ na nb, DiffEntry.lengthNote na nb ∉ (validateRows act ex).2) := by
  by_cases heq : act = ex
  · refine ⟨by simp [validateRows, heq], ?_, ?_, ?_, ?_, ?_⟩
    · intro _
      simp [validateRows, heq]
    · simp [validateRows, heq, rowCount]
    · intro idx a b hmem
      simp [validateRows, heq] at hmem
    · intro ⟨hne, _⟩
      exact absurd heq hne
    · intro _ na nb hmem
      simp [validateRows, heq] at hmem
  · have hval : validateRows act ex =
        (false, collectRowDiffs 10 0 act ex ++
          (if act.length ≠ ex.length then
             [DiffEntry.lengthNote act.length ex.length] else [])) := by
      simp [validateRows, heq]
    refine ⟨?_, ?_, ?_, ?_, ?_, ?_⟩
    · rw [hval]
      simp [heq]
    · intro h
      exact absurd h heq
    · rw [hval]
      simp only [rowCount_append]
      have hc := collectRowDiffs_length act ex 10 0 (by omega)
      have hr := rowCount_le_length (collectRowDiffs 10 0 act ex)
      have hn : rowCount (if act.length ≠ ex.length then
          [DiffEntry.lengthNote act.length ex.length] else []) = 0 := by
        split_ifs <;> simp [rowCount]
      omega
    · intro idx a b hmem
      rw [hval] at hmem
      simp only at hmem
      rcases List.mem_append.mp hmem with hm | hm
      · obtain ⟨j, a0, b0, hrow, ha, hb, hne⟩ := collectRowDiffs_mem act ex 10 0 _ hm
        injection hrow with e1 e2 e3
        exact ⟨j, by omega, by rw [e2]; exact ha, by rw [e3]; exact hb,
          by rw [e2, e3]; exact hne⟩
      · split_ifs at hm
        · simp at hm
        · simp at hm
    · intro ⟨_, hlen⟩
      rw [hval]
      simp [hlen]
    · intro hlen na nb hmem
      rw [hval] at hmem
      simp only at hmem
      rcases List.mem_append.mp hmem with hm | hm
      · obtain ⟨j, a0, b0, hrow, _, _, _⟩ := collectRowDiffs_mem act ex 10 0 _ hm
        exact DiffEntry.noConfusion hrow
      · rw [if_neg (by omega)] at hm
        simp at hm

/-- C9 witness: identical 5-row files give `isEqual = true` with an empty
report; files with differing lengths get the final length note. -/
theorem validate_csv_spec_witness :
    (validateRows [["r1"], ["r2"], ["r3"], ["r4"], ["r5"]]
        [["r1"], ["r2"], ["r3"], ["r4"], ["r5"]]).1 = true ∧
    (validateRows [["r1"], ["r2"], ["r3"], ["r4"], ["r5"]]
        [["r1"], ["r2"], ["r3"], ["r4"], ["r5"]]).2 = [] ∧
    (validateRows [["r1"], ["r2"], ["r3"], ["r4"], ["r5"]]
        [["r1"], ["r2"], ["r3"], ["r4"], ["r5"], ["r6"]]).2 =
      collectRowDiffs 10 0 [["r1"], ["r2"], ["r3"], ["r4"], ["r5"]]
        [["r1"], ["r2"], ["r3"], ["r4"], ["r5"], ["r6"]] ++
        [DiffEntry.lengthNote 5 6] :=
  ⟨(validate_csv_spec [["r1"], ["r2"], ["r3"], ["r4"], ["r5"]]
      [["r1"], ["r2"], ["r3"], ["r4"], ["r5"]]).1.mpr rfl,
   (validate_csv_spec [["r1"], ["r2"], ["r3"], ["r4"], ["r5"]]
      [["r1"], ["r2"], ["r3"], ["r4"], ["r5"]]).2.1 rfl,
   (validate_csv_spec [["r1"], ["r2"], ["r3"], ["r4"], ["r5"]]
      [["r1"], ["r2"], ["r3"], ["r4"], ["r5"], ["r6"]]).2.2.2.2.1
     ⟨by decide, by decide⟩⟩

/-- C10: `parse_time` performs no range validation — a text without the
undecided marker whose first `\d{1,2}:\d{2}` match is out of range (hour
above 23 or minutes above 59) yields that token zero-padded, and
serializing any `Game` whose `start_time` is that token makes `to_row`
raise (the `%H:%M` re-parse fails), so `to_row`'s error branch is
reachable from `parse_time`'s output. -/
theorem parse_time_no_range_validation (s : String) (hh mm : Nat) (g : Game)
    (hmk : hasSub mitei s.data = false)
    (hts : timeSearch s.data = some (hh, mm))
    (hrange : 23 < hh ∨ 59 < mm) :
    parse_time s = some (fmtHM hh mm) ∧
    (g.start_time = some (fmtHM hh mm) → (Game.to_row g).isOk = false) := by
  constructor
  · simp [parse_time, hmk, hts]
  · intro hst
    have hbounds := timeSearch_le hts
    have hnotok := parseHM_fmt_not_ok hh mm hbounds.1 hbounds.2 hrange
    unfold Game.to_row
    rw [hst]
    simp only [rowFromTime]
    rw [if_neg (fmtHM_ne_empty hh mm)]
    cases hp : parseHM (fmtHM hh mm).data with
    | error e => rfl
    | ok p =>
      rw [hp] at hnotok
      simp [Except.isOk, Except.toBool] at hnotok

/-- C10 witness: `"99:99"` passes `parse_time` unvalidated and then makes
`to_row` fail. -/
theorem parse_time_no_range_validation_witness :
    parse_time "99:99" = some "99:99" ∧
    (Game.to_row ⟨"[AWAY]", "X", "Y", ⟨2025, 10, 5⟩, some "99:99"⟩).isOk = false := by
  have h := parse_time_no_range_validation "99:99" 99 99
    ⟨"[AWAY]", "X", "Y", ⟨2025, 10, 5⟩, some "99:99"⟩ rfl rfl (by omega)
  exact ⟨h.1.trans rfl, h.2 rfl⟩
